import Mathlib

/-!
Verification development for the ADV-O synthetic fraud-transaction generator.

The repository sources embedded here are:
  * `ADVO/generator/generator.py`  — the `Generator` class (`_generate_transactions_table`,
    `export`, `load`) and the fraud-walk helper functions (`compute_first_time`,
    `compute_first_amount`, `compute_new_amt`, `compute_first_centre`,
    `compute_new_centre`, `compute_time`);
  * `ADVO/generator/customers.py`  — `generate_customer_profiles_table`;
  * `generator/functions/radius.py` — `get_list_terminals_within_radius`,
    `get_list_terminals_within_radius_from_point`.

The files `transactions.py` and `terminals.py` of the repository are not available;
the functions they define (`generate_genuine_transactions`,
`generate_fraudulent_transactions`, `compromise_user`) are modelled from the spec,
each marked `Modelled from the spec:` in its doc string.

Modelling conventions:
  * Python/NumPy floats are modelled as rationals (ℚ); float rounding error is not
    modelled.
  * The two process-wide pseudo-random generators (the `random` module and
    `np.random`) are modelled as explicit streams of rationals threaded through
    every function that draws.  A draw from `np.random.normal(loc, scale)` reads the
    next stream value `z` (the standard-normal variate supplied by the oracle) and
    returns `loc + scale * z`; `np.random.uniform(a, b)` reads `u` (intended in
    `[0,1)`) and returns `a + (b-a) * u`; `np.random.poisson` reads the drawn value
    directly (its distribution is not modelled).
  * Python `while` rejection loops are modelled with an explicit fuel parameter and
    an `Option` result; `none` means the loop was still running after `fuel`
    resamples (in particular a loop whose exit condition is unsatisfiable yields
    `none` for every fuel).
-/

/-- A pseudo-random generator state: an oracle stream of rationals together with the
position of the next value to be read. -/
structure RNG where
  vals : ℕ → ℚ
  idx : ℕ

/-- Read one value from the stream and advance. -/
def RNG.next (g : RNG) : ℚ × RNG := (g.vals g.idx, ⟨g.vals, g.idx + 1⟩)

/-- Model of `np.random.normal(loc, scale)`: the stream supplies the standard-normal
variate `z`; the draw is `loc + scale * z`. -/
def npNormal (loc scale : ℚ) (g : RNG) : ℚ × RNG :=
  let p := g.next
  (loc + scale * p.1, p.2)

/-- Model of `np.random.uniform(a, b)`: the stream supplies `u` (intended in `[0,1)`);
the draw is `a + (b - a) * u`. -/
def npUniform (a b : ℚ) (g : RNG) : ℚ × RNG :=
  let p := g.next
  (a + (b - a) * p.1, p.2)

/-- Python `int(q)`: truncation toward zero. -/
def int_trunc (q : ℚ) : ℤ := if 0 ≤ q then ⌊q⌋ else -⌊-q⌋

/-- Python `abs` / `np.abs` on a float, as an executable conditional
(equal to `|q|`, see `rat_abs_eq_abs`). -/
def rat_abs (q : ℚ) : ℚ := if q < 0 then -q else q

/-- Python `abs` on an int, as an executable conditional (equal to `|z|`,
see `int_abs_eq_abs`). -/
def int_abs (z : ℤ) : ℤ := if z < 0 then -z else z

/-- Model of `np.random.poisson(lam)`: the stream supplies the drawn count directly
(the Poisson distribution itself is not modelled); the `lam` argument is kept to
mirror the call site. -/
def npPoisson (_lam : ℚ) (g : RNG) : ℕ × RNG :=
  let p := g.next
  ((int_trunc p.1).toNat, p.2)

/-- `np.round(q, decimals=2)`: rounding to two decimal places
(the half-even tie rule of NumPy is modelled by Lean's `round`; ties at the third
decimal are immaterial to every claim below). -/
def round2 (q : ℚ) : ℚ := ((round (q * 100) : ℤ) : ℚ) / 100

/-- `generator.py` lines 211–221, `compute_first_time`:
`time_tx = abs(int(np.random.normal(86400 / 8, 20000)))`. -/
def compute_first_time (g : RNG) : ℤ × RNG :=
  let p := npNormal (86400 / 8) 20000 g
  (int_abs (int_trunc p.1), p.2)

/-- `generator.py` lines 225–244, `compute_first_amount`:
`np.random.normal(loc=fraudsters_mean, scale=fraudsters_var)` rounded to 2 decimals
(no absolute value is taken: the result may be negative). -/
def compute_first_amount (fraudsters_mean fraudsters_var : ℚ) (g : RNG) : ℚ × RNG :=
  let p := npNormal fraudsters_mean fraudsters_var g
  (round2 p.1, p.2)

/-- `generator.py` lines 281–302, `compute_new_amt`:
`np.abs(np.random.normal(1.1*prev_AMT - 0.2*prev_X + 0.7 + prev_Y*0.1, fraudsters_var/2))`
(absolute value is taken, no rounding is applied). -/
def compute_new_amt (previous_AMT previous_X previous_Y fraudsters_var : ℚ) (g : RNG) :
    ℚ × RNG :=
  let p := npNormal (11 / 10 * previous_AMT - 1 / 5 * previous_X + 7 / 10 +
    previous_Y * (1 / 10)) (fraudsters_var / 2) g
  (rat_abs p.1, p.2)

/-- A Python `while not ok(x): x = draw()` rejection loop, with fuel bounding the
number of resamples.  `none` means the loop had not exited after `fuel` resamples. -/
def rejectLoop (draw : RNG → ℚ × RNG) (ok : ℚ → Bool) :
    ℕ → ℚ → RNG → Option (ℚ × RNG)
  | 0, x, g => if ok x then some (x, g) else none
  | Nat.succ f, x, g =>
    if ok x then some (x, g)
    else
      let p := draw g
      rejectLoop draw ok f p.1 p.2

/-- The bound test of the centre rejection loops: `while v > 100 or v < 0` keeps
looping, so the accepted values are `0 ≤ v ≤ 100`. -/
def centreOk (v : ℚ) : Bool := !(decide (v > 100) || decide (v < 0))

/-- `generator.py` lines 194–208, `compute_first_centre`:
`x, y = normal(70, 4), normal(20, 6)`; then `while x > 100 or x < 0: x = normal(70, 4)`
and `while y > 100 or y < 0: y = normal(20, 4)` (the retry scale for `y` is 4, not
the 6 of the first draw, as in the source). -/
def compute_first_centre (fuel : ℕ) (g : RNG) : Option ((ℚ × ℚ) × RNG) :=
  let px := npNormal 70 4 g
  let py := npNormal 20 6 px.2
  match rejectLoop (npNormal 70 4) centreOk fuel px.1 py.2 with
  | none => none
  | some (x, g1) =>
    match rejectLoop (npNormal 20 4) centreOk fuel py.1 g1 with
    | none => none
    | some (y, g2) => some ((x, y), g2)

/-- `generator.py` lines 247–278, `compute_new_centre`: the deterministic quadratic
map of the normalized previous centre gives the target `(X, Y)`; the new centre is
drawn `Normal(target, 5)` per axis, redrawn with `Normal(target, 10)` while out of
`[0,100]`. -/
def compute_new_centre (previous_X previous_Y : ℚ) (fuel : ℕ) (g : RNG) :
    Option ((ℚ × ℚ) × RNG) :=
  let small_x := previous_X / 100
  let small_y := previous_Y / 100
  let X := (small_x * (3 / 4) - 3 / 50 * small_y + 2 / 25 * small_x ^ 2 +
    1 / 2 * small_y ^ 2 - small_x * small_y * (3 / 10)) * 100
  let Y := (small_x * (3 / 10) + 17 / 20 * small_y - 3 / 10 * small_x ^ 2 +
    1 / 10 * small_y ^ 2 - small_x * small_y * (3 / 10)) * 100
  let px := npNormal X 5 g
  let py := npNormal Y 5 px.2
  match rejectLoop (npNormal X 10) centreOk fuel px.1 py.2 with
  | none => none
  | some (x, g1) =>
    match rejectLoop (npNormal Y 10) centreOk fuel py.1 g1 with
    | none => none
    | some (y, g2) => some ((x, y), g2)

/-- One candidate of the same-day branch of `compute_time`:
`int(previous_fraud[0] + abs(np.random.normal(loc=0, scale=30000)))`. -/
def compute_time_candidate (prev_time : ℤ) (g : RNG) : ℤ × RNG :=
  let p := npNormal 0 30000 g
  (int_trunc ((prev_time : ℚ) + rat_abs p.1), p.2)

/-- The `while time_tx > 86400:` resampling loop of `compute_time`, with fuel. -/
def compute_time_loop (prev_time : ℤ) : ℕ → ℤ → RNG → Option (ℤ × RNG)
  | 0, t, g => if 86400 < t then none else some (t, g)
  | Nat.succ f, t, g =>
    if 86400 < t then
      let p := compute_time_candidate prev_time g
      compute_time_loop prev_time f p.1 p.2
    else some (t, g)

/-- `generator.py` lines 310–327, `compute_time`: if the previous fraud's day equals
`day`, draw `int(prev_time + abs(Normal(0, 30000)))` resampling while the result
exceeds 86400; otherwise draw a fresh `compute_first_time`. -/
def compute_time (previous_fraud : ℤ × ℕ) (day : ℕ) (fuel : ℕ) (g : RNG) :
    Option (ℤ × RNG) :=
  if previous_fraud.2 = day then
    let p := compute_time_candidate previous_fraud.1 g
    compute_time_loop previous_fraud.1 fuel p.1 p.2
  else
    some (compute_first_time g)

/-- A customer profile row.  Columns of `customers.py` line 21; the
`available_terminals` column is added to the same table by `Generator._initialize`
(`generator.py` lines 67–68) and is carried here as a field, set to `[]` by the
factory. -/
structure CustomerProfile where
  CUSTOMER_ID : ℕ
  x_customer_id : ℚ
  y_customer_id : ℚ
  mean_amount : ℚ
  std_amount : ℚ
  mean_nb_tx_per_day : ℚ
  compromised : Bool
  available_terminals : List ℕ
  deriving DecidableEq, Repr

/-- One row of `generate_customer_profiles_table`'s loop (`customers.py` lines
24–35): draws, in order, `x ~ uniform(0,100)`, `y ~ uniform(0,100)`,
`mean_amount ~ uniform(5,100)`, then `std_amount = mean_amount/2`,
`mean_nb_tx_per_day ~ uniform(0,4)`, `compromised = 0`. -/
def generate_customer_profiles_row (customer_id : ℕ) (g : RNG) : CustomerProfile × RNG :=
  let px := npUniform 0 100 g
  let py := npUniform 0 100 px.2
  let pm := npUniform 5 100 py.2
  let pn := npUniform 0 4 pm.2
  (⟨customer_id, px.1, py.1, pm.1, pm.1 / 2, pn.1, false, []⟩, pn.2)

/-- The row loop of `generate_customer_profiles_table`: `remaining` rows starting at
id `customer_id`. -/
def generate_customer_profiles_aux : ℕ → ℕ → RNG → List CustomerProfile × RNG
  | 0, _, g => ([], g)
  | Nat.succ n, customer_id, g =>
    let pr := generate_customer_profiles_row customer_id g
    let rest := generate_customer_profiles_aux n (customer_id + 1) pr.2
    (pr.1 :: rest.1, rest.2)

/-- `customers.py` lines 4–37, `generate_customer_profiles_table`: seeds the global
NumPy generator with `random_state` (modelled: the ambient stream is replaced by the
stream `mt random_state` at position 0, where `mt` is the seed-indexed family of
oracle streams) and then generates `n_customers` rows with ids `0..n-1`. -/
def generate_customer_profiles_table (mt : ℕ → ℕ → ℚ) (n_customers : ℕ)
    (random_state : ℕ) (ambient : RNG) : List CustomerProfile × RNG :=
  let _ := ambient
  let g0 : RNG := ⟨mt random_state, 0⟩
  generate_customer_profiles_aux n_customers 0 g0

/-- Squared Euclidean distance between two points of the plane, as computed by
`radius.py` (`np.square(x_y_customer - x_y_terminals)` summed along the row). -/
def squaredDist (p t : ℚ × ℚ) : ℚ := (p.1 - t.1) ^ 2 + (p.2 - t.2) ^ 2

/-- The comparison `np.sqrt(s) < r` performed by `radius.py` on a non-negative
squared distance `s`, expressed as an executable test on rationals: it holds exactly
when `r` is positive and `s < r²` (see `sqrtLt_correct`). -/
def sqrtLt (s r : ℚ) : Bool := decide (0 < r) && decide (s < r ^ 2)

/-- `radius.py` lines 5–38, `get_list_terminals_within_radius`: indices (in input
order, as produced by `np.where`) of the terminals whose Euclidean distance to the
customer's location is strictly less than `r`. -/
def get_list_terminals_within_radius (customer_profile : CustomerProfile)
    (x_y_terminals : List (ℚ × ℚ)) (r : ℚ) : List ℕ :=
  (List.range x_y_terminals.length).filter fun i =>
    sqrtLt (squaredDist (customer_profile.x_customer_id, customer_profile.y_customer_id)
      (x_y_terminals.getD i (0, 0))) r

/-- `radius.py` lines 41–81, `get_list_terminals_within_radius_from_point`: the same
selection rule from an explicit point, returning the selected indices together with
the squared distance of each selected terminal.  The source returns
`np.exp(-weights[available_terminals])` where `weights` is this squared-distance
vector; since `exp` is transcendental, the embedding returns the exponents and the
weight of a selected terminal is `Real.exp (-exponent)` (see the C6 theorem). -/
def get_list_terminals_within_radius_from_point (x_centre y_centre : ℚ)
    (x_y_terminals : List (ℚ × ℚ)) (r : ℚ) : List ℕ × List ℚ :=
  let available := (List.range x_y_terminals.length).filter fun i =>
    sqrtLt (squaredDist (x_centre, y_centre) (x_y_terminals.getD i (0, 0))) r
  (available, available.map fun i =>
    squaredDist (x_centre, y_centre) (x_y_terminals.getD i (0, 0)))

/-- A file-system write action performed by `Generator.export`. -/
inductive FileAction where
  | csvWrite (filename : String)
  | pklWrite (filename : String)
  deriving DecidableEq, Repr

def fmtCsv : String := "csv"

def fmtPkl : String := "pkl"

def extCsv : String := ".csv"

def extPkl : String := ".pkl"

def dotStr : String := "."

def invalidFmtMsg : String := "Invalid file format"

/-- `generator.py` lines 124–155, `Generator.export` (named `exportTable` because
`export` is a Lean keyword): appends `'.' + format` to the filename, writes CSV when
`format == 'csv'`, pickles when `format == 'pkl'`; the dispatch has no `else`
branch, so any other format performs no action and raises nothing.  The result is
the list of write actions performed and the error raised (always `none`: the source
contains no `raise`). -/
def exportTable (filename format : String) : List FileAction × Option String :=
  let filename := filename ++ dotStr ++ format
  if format = fmtCsv then ([FileAction.csvWrite filename], none)
  else if format = fmtPkl then ([FileAction.pklWrite filename], none)
  else ([], none)

/-- The tables held by a `Generator` that `load` assigns (`transactions_df` and
`terminal_profiles_table`), kept abstract as opaque row lists. -/
structure GenTables where
  transactions_df : List String
  terminal_profiles_table : List String
  deriving DecidableEq, Repr

/-- Python `str.endswith(suffix)`: executable suffix test on the character lists
of the two strings. -/
def str_ends_with (s suffix : String) : Bool :=
  decide (s.data.reverse.take suffix.data.length = suffix.data.reverse)

/-- `generator.py` lines 157–183, `Generator.load`: reads the file as CSV if the
filename ends in `.csv`, unpickles if it ends in `.pkl`, otherwise raises
`ValueError('Invalid file format')` before any table is assigned.  `readFile` maps
a filename to the tables its contents denote; on the error path the generator's
tables `st` are returned unchanged together with the raised message. -/
def load (st : GenTables) (filename : String) (readFile : String → GenTables) :
    GenTables × Option String :=
  if str_ends_with filename extCsv then
    let t := readFile filename
    (⟨t.transactions_df.eraseDups, t.terminal_profiles_table.eraseDups⟩, none)
  else if str_ends_with filename extPkl then
    let t := readFile filename
    (⟨t.transactions_df.eraseDups, t.terminal_profiles_table.eraseDups⟩, none)
  else (st, some invalidFmtMsg)

/-- A transaction row, with the columns of `generator.py` lines 99–101. -/
structure Tx where
  TX_TIME_SECONDS_INSIDE_DAY : ℤ
  TX_TIME_DAYS : ℕ
  CUSTOMER_ID : ℕ
  TERMINAL_ID : ℕ
  TX_AMOUNT : ℚ
  TX_FRAUD : Bool
  deriving DecidableEq, Repr

/-- The generator configuration read by `_generate_transactions_table`: constructor
parameters of `Generator` plus the fields `_initialize` computes
(`fraudsters_mean`, `fraudsters_var`, `x_y_terminals`). -/
structure SimConfig where
  nb_days : ℕ
  max_days_from_compromission : ℕ
  compromission_probability : ℚ
  fraudsters_mean : ℚ
  fraudsters_var : ℚ
  x_y_terminals : List (ℚ × ℚ)
  radius : ℚ

/-- Modelled from the spec: the per-transaction amount of the genuine path,
`|Normal(mean_amount, std_amount)|` rounded to 2 decimals (spec §4.4 step 3).  The
defining file `transactions.py` is not in the sources. -/
def genuineAmount (mean_amount std_amount : ℚ) (g : RNG) : ℚ × RNG :=
  let p := npNormal mean_amount std_amount g
  (round2 (rat_abs p.1), p.2)

/-- Modelled from the spec: a uniform choice from a non-empty list, driven by one
draw of the per-customer-seeded `random`-module stream (spec §4.4 step 3: "a
terminal sampled uniformly from the customer's precomputed available-terminal
set"). -/
def pyChoice (l : List ℕ) (g : RNG) : ℕ × RNG :=
  let p := g.next
  (l.getD ((int_trunc p.1).toNat % l.length) 0, p.2)

/-- Modelled from the spec: one genuine transaction (spec §4.4 step 3): an
independent time-of-day draw (modelled by the `compute_first_time` distribution), a
terminal sampled uniformly from the available set, an amount
`|Normal(mean, std)|` rounded to 2 decimals, and fraud label equal to the
customer's current compromised flag.  Defined in the missing `transactions.py`. -/
def genuine_tx (customer_profile : CustomerProfile) (day : ℕ) (npg pyg : RNG) :
    Tx × RNG × RNG :=
  let pt := compute_first_time npg
  let pterm := pyChoice customer_profile.available_terminals pyg
  let pa := genuineAmount customer_profile.mean_amount customer_profile.std_amount pt.2
  (⟨pt.1, day, customer_profile.CUSTOMER_ID, pterm.1, pa.1, customer_profile.compromised⟩,
    pa.2, pterm.2)

/-- Modelled from the spec: `generate_genuine_transactions` (missing
`transactions.py`): appends `nb_tx` genuine transactions for `day`; a customer with
an empty available-terminal set produces no genuine transactions that day
(spec §4.1 edge case, §7). -/
def generate_genuine_transactions (customer_transactions : List Tx) (nb_tx : ℕ)
    (customer_profile : CustomerProfile) (day : ℕ) (npg pyg : RNG) :
    List Tx × RNG × RNG :=
  if customer_profile.available_terminals.isEmpty then (customer_transactions, npg, pyg)
  else
    match nb_tx with
    | 0 => (customer_transactions, npg, pyg)
    | Nat.succ n =>
      let p := genuine_tx customer_profile day npg pyg
      generate_genuine_transactions (customer_transactions ++ [p.1]) n customer_profile
        day p.2.1 p.2.2

/-- The coordinates of a recorded transaction's terminal, used as the fraud walk's
previous centre (spec §4.4 step 2: the walk is "chained off the customer's last
recorded (time, day, amount, centre)"). -/
def txCentre (cfg : SimConfig) (tx : Tx) : ℚ × ℚ :=
  cfg.x_y_terminals.getD tx.TERMINAL_ID (0, 0)

/-- Modelled from the spec: one fraudulent transaction chained off the last recorded
transaction `prev` (spec §4.3–§4.4): the time comes from `compute_time` on the
previous transaction's (time, day); when `prev` is itself fraud the centre and
amount continue the walk (`compute_new_centre`, `compute_new_amt`), otherwise the
episode starts with the initial draws (`compute_first_centre`,
`compute_first_amount`); the terminal is sampled among the terminals within the
generator radius of the new centre, weighted by distance (the weighted sampling is
modelled as an oracle choice from the selected list); when no terminal is within
radius no transaction is materialized.  Defined in the missing `transactions.py`. -/
def fraud_tx (cfg : SimConfig) (customer_profile : CustomerProfile) (prev : Tx)
    (day : ℕ) (fuel : ℕ) (npg pyg : RNG) : Option (Option Tx × RNG × RNG) :=
  match compute_time (prev.TX_TIME_SECONDS_INSIDE_DAY, prev.TX_TIME_DAYS) day fuel npg with
  | none => none
  | some (time_tx, npg1) =>
    let prevCentre := txCentre cfg prev
    match (if prev.TX_FRAUD then compute_new_centre prevCentre.1 prevCentre.2 fuel npg1
      else compute_first_centre fuel npg1) with
    | none => none
    | some (centre, npg2) =>
      let pa := (if prev.TX_FRAUD then
          compute_new_amt prev.TX_AMOUNT prevCentre.1 prevCentre.2 cfg.fraudsters_var npg2
        else compute_first_amount cfg.fraudsters_mean cfg.fraudsters_var npg2)
      let sel := get_list_terminals_within_radius_from_point centre.1 centre.2
        cfg.x_y_terminals cfg.radius
      if sel.1.isEmpty then some (none, pa.2, pyg)
      else
        let pterm := pyChoice sel.1 pyg
        some (some ⟨time_tx, day, customer_profile.CUSTOMER_ID, pterm.1, pa.1, true⟩,
          pa.2, pterm.2)

/-- Modelled from the spec: `generate_fraudulent_transactions` (missing
`transactions.py`): appends `nb_tx` fraudulent transactions for `day`, each chained
off the then-last recorded transaction. -/
def generate_fraudulent_transactions (cfg : SimConfig) (customer_transactions : List Tx)
    (nb_tx : ℕ) (customer_profile : CustomerProfile) (day : ℕ) (fuel : ℕ)
    (npg pyg : RNG) : Option (List Tx × RNG × RNG) :=
  match nb_tx with
  | 0 => some (customer_transactions, npg, pyg)
  | Nat.succ n =>
    match customer_transactions.getLast? with
    | none => some (customer_transactions, npg, pyg)
    | some prev =>
      match fraud_tx cfg customer_profile prev day fuel npg pyg with
      | none => none
      | some (otx, npg1, pyg1) =>
        generate_fraudulent_transactions cfg
          (customer_transactions ++ (otx.map (fun t => [t])).getD []) n
          customer_profile day fuel npg1 pyg1

/-- Modelled from the spec: `compromise_user` (missing `transactions.py`): a
customer that is already compromised stays compromised (spec §3 lifecycle: "once
compromised stays compromised", §4.4: "COMPROMISED has no outgoing transition");
otherwise the flag flips with probability `compromission_probability`, modelled as
one draw `u` with outcome `u < p`. -/
def compromise_user (customer_profile : CustomerProfile)
    (compromission_probability : ℚ) (g : RNG) : Bool × RNG :=
  if customer_profile.compromised then (true, g)
  else
    let p := g.next
    (decide (p.1 < compromission_probability), p.2)

/-- The per-customer simulation state: the (mutable) profile row, the transactions
recorded so far, the `days_from_compromission` counter, and the two generator
states. -/
structure SimState where
  profile : CustomerProfile
  txs : List Tx
  days_from_compromission : ℕ
  npg : RNG
  pyg : RNG

/-- The observable end-of-day record of one simulated day: the compromised flag at
the end of the day, whether the fraudulent branch fired, and the
`days_from_compromission` counter at the end of the day. -/
structure DayLog where
  flag : Bool
  fired : Bool
  counter : ℕ
  deriving DecidableEq, Repr

/-- The body of the day loop of `_generate_transactions_table` (`generator.py`
lines 87–97): draw `nb_tx = poisson(mean_nb_tx_per_day) + 1`; if the customer is
compromised, has at least one recorded transaction, and the counter is below
`max_days_from_compromission`, generate fraudulent transactions and increment the
counter; otherwise generate genuine transactions and re-evaluate the compromised
flag with `compromise_user`. -/
def simDay (cfg : SimConfig) (fuel day : ℕ) (st : SimState) :
    Option (SimState × DayLog) :=
  let pp := npPoisson st.profile.mean_nb_tx_per_day st.npg
  let nb_tx := pp.1 + 1
  let fire := st.profile.compromised && decide (0 < st.txs.length) &&
    decide (st.days_from_compromission < cfg.max_days_from_compromission)
  if fire then
    match generate_fraudulent_transactions cfg st.txs nb_tx st.profile day fuel pp.2
      st.pyg with
    | none => none
    | some (txs1, npg1, pyg1) =>
      some ({ st with
          txs := txs1,
          days_from_compromission := st.days_from_compromission + 1,
          npg := npg1,
          pyg := pyg1 },
        ⟨st.profile.compromised, true, st.days_from_compromission + 1⟩)
  else
    let pg := generate_genuine_transactions st.txs nb_tx st.profile day pp.2 st.pyg
    let pc := compromise_user st.profile cfg.compromission_probability pg.2.1
    some ({ st with
        profile := ({ st.profile with compromised := pc.1 }),
        txs := pg.1,
        npg := pc.2,
        pyg := pg.2.2 },
      ⟨pc.1, false, st.days_from_compromission⟩)

/-- The day loop: `remaining` days starting at index `day`. -/
def simDaysAux (cfg : SimConfig) (fuel : ℕ) :
    ℕ → ℕ → SimState → Option (SimState × List DayLog)
  | 0, _, st => some (st, [])
  | Nat.succ n, day, st =>
    match simDay cfg fuel day st with
    | none => none
    | some (st1, log) =>
      match simDaysAux cfg fuel n (day + 1) st1 with
      | none => none
      | some (stF, logs) => some (stF, log :: logs)

/-- `generator.py` lines 73–111, `Generator._generate_transactions_table`: resets
the `random`-module generator with `random.seed(int(customer_profile['CUSTOMER_ID']))`
(modelled: the python stream becomes `pyMt CUSTOMER_ID` at position 0, where `pyMt`
is the seed-indexed family of oracle streams) — the NumPy generator `ambientNp` is
NOT reseeded and flows in from whatever was simulated before — and then runs the
day loop for `nb_days` days starting from an empty transaction list and
`days_from_compromission = 0`. -/
def generate_transactions_table (cfg : SimConfig) (pyMt : ℕ → ℕ → ℚ)
    (customer_profile : CustomerProfile) (ambientNp : RNG) (fuel : ℕ) :
    Option (SimState × List DayLog) :=
  let pyg : RNG := ⟨pyMt customer_profile.CUSTOMER_ID, 0⟩
  simDaysAux cfg fuel cfg.nb_days 0 ⟨customer_profile, [], 0, ambientNp, pyg⟩

/-- The observable outcome of a per-customer simulation run: the recorded
transactions and the per-day logs. -/
def runLogs (cfg : SimConfig) (pyMt : ℕ → ℕ → ℚ) (customer_profile : CustomerProfile)
    (ambientNp : RNG) (fuel : ℕ) : Option (List Tx × List DayLog) :=
  (generate_transactions_table cfg pyMt customer_profile ambientNp fuel).map
    fun p => (p.1.txs, p.2)

/-! ### Concrete oracle streams and inputs used by counterexamples and witnesses -/

/-- The all-zero seed-indexed stream family (every draw is the distribution's
central value). -/
def mt0 : ℕ → ℕ → ℚ := fun _ _ => 0

/-- The all-zero stream at position 0. -/
def zeroRNG : RNG := ⟨fun _ => 0, 0⟩

/-- The all-zero stream after one draw. -/
def zeroRNG1 : RNG := ⟨fun _ => 0, 1⟩

/-- A stream whose every value is 100 (a far-right-tail normal variate). -/
def bigRNG : RNG := ⟨fun _ => 100, 0⟩

/-- A stream whose every value is −1. -/
def negRNG : RNG := ⟨fun _ => -1, 0⟩

/-- A stream whose every value is 1/1000. -/
def milliRNG : RNG := ⟨fun _ => 1 / 1000, 0⟩

def dsName : String := "dataset"

def fmtJson : String := "json"

def txtName : String := "dataset.txt"

def tablesW : GenTables := ⟨[], []⟩

def rdW : String → GenTables := fun _ => ⟨[], []⟩

/-- A small configuration: 2 days, cap 3, compromise probability 1 (the compromise
roll always succeeds), fraud population parameters mean 10 / var 40, terminals at
(0,0) and (70,20), radius 20. -/
def cfgC7 : SimConfig := ⟨2, 3, 1, 10, 40, [(0, 0), (70, 20)], 20⟩

/-- A customer at the origin with terminal 0 available. -/
def profW : CustomerProfile := ⟨0, 0, 0, 10, 5, 1, false, [0]⟩

/-- The NumPy oracle stream of the C7 run: all central draws except the ninth
(the first fraud amount's variate, −1). -/
def ambC7 : RNG := ⟨fun i => if i = 8 then -1 else 0, 0⟩

/-- The fraudulent transaction of the C7 run: amount −30. -/
def txC7 : Tx := ⟨10800, 1, 0, 1, -30, true⟩

def txsC7 : List Tx := [⟨10800, 0, 0, 0, 10, false⟩, txC7]

def logsC7 : List DayLog := [⟨true, false, 0⟩, ⟨true, true, 1⟩]

/-- A 1-day configuration used to compare two ambient NumPy states. -/
def cfg1 : SimConfig := ⟨1, 3, 0, 10, 2, [(0, 0)], 20⟩

/-- An ambient NumPy stream at position 0 (as if no other customer was simulated
before). -/
def ambA : RNG := ⟨fun i => if i = 0 then 0 else 1, 0⟩

/-- The same ambient NumPy stream one draw later (as if an earlier customer's
simulation had consumed one draw). -/
def ambB : RNG := ⟨fun i => if i = 0 then 0 else 1, 1⟩

/-- The first customer row produced from the all-zero stream. -/
def prof9 : CustomerProfile := ⟨0, 0, 0, 5, 5 / 2, 0, false, []⟩

def tsC6 : List (ℚ × ℚ) := [(3, 4)]

/-! ### Arithmetic facts about the embedded helpers -/

/-- The executable `rat_abs` agrees with the absolute value. -/
theorem rat_abs_eq_abs (q : ℚ) : rat_abs q = |q| := by
  unfold rat_abs
  rcases lt_or_le q 0 with h | h
  · rw [if_pos h, abs_of_neg h]
  · rw [if_neg (not_lt.mpr h), abs_of_nonneg h]

/-- The executable `int_abs` agrees with the absolute value. -/
theorem int_abs_eq_abs (z : ℤ) : int_abs z = |z| := by
  unfold int_abs
  rcases lt_or_le z 0 with h | h
  · rw [if_pos h, abs_of_neg h]
  · rw [if_neg (not_lt.mpr h), abs_of_nonneg h]

/-- `round2` is idempotent: a value already rounded to 2 decimals is unchanged. -/
theorem round2_idem (q : ℚ) : round2 (round2 q) = round2 q := by
  unfold round2
  rw [div_mul_cancel₀ _ (by norm_num : (100:ℚ) ≠ 0), round_intCast]

/-- `round2` preserves non-negativity. -/
theorem round2_nonneg {q : ℚ} (h : 0 ≤ q) : 0 ≤ round2 q := by
  unfold round2
  have h1 : (0:ℤ) ≤ round (q * 100) := by
    rw [round_eq]
    exact Int.floor_nonneg.mpr (by positivity)
  positivity

/-- `int_trunc` of a non-negative rational is its floor. -/
theorem int_trunc_of_nonneg {q : ℚ} (h : 0 ≤ q) : int_trunc q = ⌊q⌋ := if_pos h

/-! ### Claim C5 — export/load error handling -/

/-- C5, counterexample: calling `export` with the unrecognized format `'json'` does
NOT report a configuration error — the dispatch of `generator.py` lines 151–155 has
no `else` branch, so the call writes nothing and raises nothing (the claim asserts
an error is reported rather than silently doing nothing). -/
theorem C5_counterexample_export_silent :
    exportTable dsName fmtJson = ([], none) := by rfl

/-- C5, amended: `export` with a format other than `'csv'`/`'pkl'` silently
performs no write and raises no error, while `load` with a filename whose extension
is neither `.csv` nor `.pkl` raises `ValueError('Invalid file format')` and leaves
the generator's tables unchanged. -/
theorem C5_amended_export_load :
    (∀ f fmt : String, fmt ≠ fmtCsv → fmt ≠ fmtPkl → exportTable f fmt = ([], none)) ∧
    (∀ (st : GenTables) (fn : String) (rd : String → GenTables),
      str_ends_with fn extCsv = false → str_ends_with fn extPkl = false →
      load st fn rd = (st, some invalidFmtMsg)) := by
  constructor
  · intro f fmt h1 h2
    unfold exportTable
    rw [if_neg h1, if_neg h2]
  · intro st fn rd h1 h2
    unfold load
    rw [h1, h2]
    simp

/-- C5, witness: the amended theorem applied at the concrete inputs
`export('dataset', 'json')` and `load('dataset.txt')`. -/
theorem C5_amended_export_load_witness :
    (fmtJson ≠ fmtCsv ∧ fmtJson ≠ fmtPkl ∧ str_ends_with txtName extCsv = false ∧
      str_ends_with txtName extPkl = false) ∧
    exportTable dsName fmtJson = ([], none) ∧
    load tablesW txtName rdW = (tablesW, some invalidFmtMsg) :=
  ⟨⟨by decide, by decide, by decide, by decide⟩,
    C5_amended_export_load.1 dsName fmtJson (by decide) (by decide),
    C5_amended_export_load.2 tablesW txtName rdW (by decide) (by decide)⟩

/-! ### Claim C7 — transaction amounts -/

/-- C7, counterexample: a simulated run (customer compromised after day 0; first
fraud-walk amount drawn as `compute_first_amount` with a left-tail variate) whose
fraudulent transaction has the NEGATIVE amount −30: not every transaction produced
by the simulation has a non-negative amount. -/
theorem C7_counterexample_negative_amount :
    runLogs cfgC7 mt0 profW ambC7 3 = some (txsC7, logsC7) ∧
    txC7 ∈ txsC7 ∧ txC7.TX_FRAUD = true ∧ txC7.TX_AMOUNT < 0 := by
  refine ⟨?_, by simp [txsC7], rfl, by norm_num [txC7]⟩
  norm_num [runLogs, generate_transactions_table, simDaysAux, simDay, npPoisson,
    npNormal, npUniform, RNG.next, int_trunc, rat_abs, int_abs, round2,
    generate_genuine_transactions, genuine_tx, genuineAmount, pyChoice,
    compromise_user, generate_fraudulent_transactions, fraud_tx, compute_time,
    compute_time_candidate, compute_time_loop, compute_first_time,
    compute_first_amount, compute_new_amt, compute_first_centre, compute_new_centre,
    rejectLoop, centreOk, squaredDist, sqrtLt,
    get_list_terminals_within_radius_from_point, txCentre, mt0, cfgC7, profW, ambC7,
    txsC7, logsC7, txC7, round_eq,
    List.range_succ, List.range_zero, List.filter_append, List.filter_cons,
    List.filter_nil, List.isEmpty_cons, List.isEmpty_nil]

/-- C7, amended: genuine-path amounts are non-negative and equal to their own
2-decimal rounding; the first fraud-walk amount (`compute_first_amount`) is
2-decimal-rounded but can be negative; every later fraud-walk amount
(`compute_new_amt`) is non-negative but need not be 2-decimal-rounded. -/
theorem C7_amount_properties :
    (∀ (m s : ℚ) (g : RNG), 0 ≤ (genuineAmount m s g).1 ∧
      round2 (genuineAmount m s g).1 = (genuineAmount m s g).1) ∧
    (∀ (fm fv : ℚ) (g : RNG),
      round2 (compute_first_amount fm fv g).1 = (compute_first_amount fm fv g).1) ∧
    (∃ (fm fv : ℚ) (g : RNG), (compute_first_amount fm fv g).1 < 0) ∧
    (∀ (a x y v : ℚ) (g : RNG), 0 ≤ (compute_new_amt a x y v g).1) ∧
    (∃ (a x y v : ℚ) (g : RNG),
      round2 (compute_new_amt a x y v g).1 ≠ (compute_new_amt a x y v g).1) := by
  refine ⟨fun m s g => ⟨?_, ?_⟩, fun fm fv g => ?_,
    ⟨0, 100, negRNG, by norm_num [compute_first_amount, npNormal, RNG.next, negRNG,
      round2, round_eq]⟩,
    fun a x y v g => ?_,
    ⟨0, 0, 0, 2, milliRNG, by norm_num [compute_new_amt, npNormal, RNG.next,
      milliRNG, rat_abs, round2, round_eq]⟩⟩
  · exact round2_nonneg (by rw [rat_abs_eq_abs]; exact abs_nonneg _)
  · exact round2_idem _
  · exact round2_idem _
  · rw [show (compute_new_amt a x y v g).1 = rat_abs (npNormal (11 / 10 * a - 1 / 5 * x
      + 7 / 10 + y * (1 / 10)) (v / 2) g).1 from rfl, rat_abs_eq_abs]
    exact abs_nonneg _

/-! ### Claims C8 and C10 — compute_time -/

/-- A same-day resample candidate is at least the previous fraud time (the drawn
increment is an absolute value, and truncation of `prev + |z|` cannot go below the
integer `prev`). -/
theorem compute_time_candidate_ge (prev : ℤ) (hp : 0 ≤ prev) (g : RNG) :
    prev ≤ (compute_time_candidate prev g).1 := by
  show prev ≤ int_trunc ((prev : ℚ) + rat_abs (npNormal 0 30000 g).1)
  have habs : (0:ℚ) ≤ rat_abs (npNormal 0 30000 g).1 := by
    rw [rat_abs_eq_abs]; exact abs_nonneg _
  have hp' : (0:ℚ) ≤ (prev : ℚ) := by exact_mod_cast hp
  rw [int_trunc_of_nonneg (by linarith)]
  exact Int.le_floor.mpr (by linarith)

/-- Any value returned by the same-day resampling loop lies in
`[prev_time, 86400]`, provided it starts at a candidate that is at least
`prev_time`. -/
theorem compute_time_loop_sound {prev : ℤ} (hp : 0 ≤ prev) :
    ∀ (fuel : ℕ) (t : ℤ) (g : RNG) (t' : ℤ) (g' : RNG), prev ≤ t →
      compute_time_loop prev fuel t g = some (t', g') → prev ≤ t' ∧ t' ≤ 86400 := by
  intro fuel
  induction fuel with
  | zero =>
    intro t g t' g' hle h
    unfold compute_time_loop at h
    by_cases ht : 86400 < t
    · rw [if_pos ht] at h
      exact absurd h (by simp)
    · rw [if_neg ht] at h
      simp only [Option.some.injEq, Prod.mk.injEq] at h
      obtain ⟨h1, -⟩ := h
      exact h1 ▸ ⟨hle, not_lt.mp ht⟩
  | succ f ih =>
    intro t g t' g' hle h
    unfold compute_time_loop at h
    by_cases ht : 86400 < t
    · rw [if_pos ht] at h
      exact ih _ _ _ _ (compute_time_candidate_ge prev hp g) h
    · rw [if_neg ht] at h
      simp only [Option.some.injEq, Prod.mk.injEq] at h
      obtain ⟨h1, -⟩ := h
      exact h1 ▸ ⟨hle, not_lt.mp ht⟩

/-- When the previous fraud time already exceeds 86400, every resample candidate
also exceeds 86400, so the loop never exits, whatever the fuel. -/
theorem compute_time_loop_none {prev : ℤ} (hp : 86400 < prev) :
    ∀ (fuel : ℕ) (t : ℤ) (g : RNG), prev ≤ t →
      compute_time_loop prev fuel t g = none := by
  have hp0 : (0:ℤ) ≤ prev := le_of_lt (lt_trans (by norm_num) hp)
  intro fuel
  induction fuel with
  | zero =>
    intro t g hle
    unfold compute_time_loop
    rw [if_pos (lt_of_lt_of_le hp hle)]
  | succ f ih =>
    intro t g hle
    unfold compute_time_loop
    rw [if_pos (lt_of_lt_of_le hp hle)]
    exact ih _ _ (compute_time_candidate_ge prev hp0 g)

/-- C8: a same-day call of `compute_time` that returns, returns an integer between
the previous fraud's time and 86400; a different-day call returns exactly a fresh
`compute_first_time` draw, which is non-negative and — having no upper clamp — can
exceed 86400. -/
theorem C8_compute_time_bounds :
    (∀ (prev : ℤ) (d fuel : ℕ) (g : RNG) (t : ℤ) (g' : RNG), 0 ≤ prev →
      compute_time (prev, d) d fuel g = some (t, g') → prev ≤ t ∧ t ≤ 86400) ∧
    (∀ (pf : ℤ × ℕ) (day fuel : ℕ) (g : RNG), pf.2 ≠ day →
      compute_time pf day fuel g = some (compute_first_time g) ∧
      0 ≤ (compute_first_time g).1) ∧
    (∃ g : RNG, 86400 < (compute_first_time g).1) := by
  refine ⟨?_, ?_, ⟨bigRNG, ?_⟩⟩
  · intro prev d fuel g t g' hp h
    unfold compute_time at h
    rw [if_pos rfl] at h
    exact compute_time_loop_sound hp fuel _ _ t g'
      (compute_time_candidate_ge prev hp g) h
  · intro pf day fuel g hne
    unfold compute_time
    rw [if_neg hne]
    refine ⟨rfl, ?_⟩
    rw [show (compute_first_time g).1 =
      int_abs (int_trunc (npNormal (86400 / 8) 20000 g).1) from rfl, int_abs_eq_abs]
    exact abs_nonneg _
  · norm_num [compute_first_time, npNormal, RNG.next, bigRNG, int_trunc, int_abs]

/-- C8, witness: a same-day call at time 0 returns 0 ∈ [0, 86400]; a
different-day call (previous day 0, current day 1) returns the fresh initial
draw. -/
theorem C8_compute_time_bounds_witness :
    ((0:ℤ) ≤ 0 ∧ compute_time ((0:ℤ), 0) 0 0 zeroRNG = some (0, zeroRNG1)) ∧
    ((0:ℕ) ≠ 1 ∧ compute_time ((5:ℤ), 0) 1 0 zeroRNG =
      some (compute_first_time zeroRNG) ∧ 0 ≤ (compute_first_time zeroRNG).1) ∧
    ((0:ℤ) ≤ 0 ∧ (0:ℤ) ≤ 86400) := by
  have heq : compute_time ((0:ℤ), 0) 0 0 zeroRNG = some (0, zeroRNG1) := by
    norm_num [compute_time, compute_time_candidate, compute_time_loop, npNormal,
      RNG.next, zeroRNG, zeroRNG1, int_trunc, rat_abs]
  exact ⟨⟨le_refl 0, heq⟩,
    ⟨by norm_num, C8_compute_time_bounds.2.1 (5, 0) 1 0 zeroRNG (by norm_num)⟩,
    C8_compute_time_bounds.1 0 0 0 zeroRNG 0 zeroRNG1 (le_refl 0) heq⟩

/-- C10: for a same-day call with previous fraud time at most 86400 the loop's exit
condition is satisfiable and `compute_time` can return (a central draw exits at once
with the value `prev`); for a same-day call with previous fraud time above 86400 the
exit condition is unsatisfiable and `compute_time` returns for no fuel and no
stream; such a previous time is reachable because the first draw
(`compute_first_time`) has no upper clamp. -/
theorem C10_compute_time_termination :
    (∀ (prev : ℤ) (d : ℕ), 0 ≤ prev → prev ≤ 86400 → ∀ fuel : ℕ,
      compute_time (prev, d) d fuel zeroRNG = some (prev, zeroRNG1)) ∧
    (∀ (prev : ℤ) (d fuel : ℕ) (g : RNG), 86400 < prev →
      compute_time (prev, d) d fuel g = none) ∧
    (∃ g : RNG, 86400 < (compute_first_time g).1) := by
  refine ⟨?_, ?_, ⟨bigRNG, by norm_num [compute_first_time, npNormal, RNG.next,
    bigRNG, int_trunc, int_abs]⟩⟩
  · intro prev d hp hle fuel
    have hc : compute_time_candidate prev zeroRNG = (prev, zeroRNG1) := by
      unfold compute_time_candidate npNormal RNG.next
      show (int_trunc ((prev : ℚ) + rat_abs (0 + 30000 * zeroRNG.vals 0)), _) = _
      have h0 : rat_abs (0 + 30000 * zeroRNG.vals 0) = 0 := by
        norm_num [zeroRNG, rat_abs]
      rw [h0, add_zero, int_trunc_of_nonneg (by exact_mod_cast hp),
        Int.floor_intCast]
      rfl
    unfold compute_time
    rw [if_pos rfl]
    show compute_time_loop prev fuel (compute_time_candidate prev zeroRNG).1
      (compute_time_candidate prev zeroRNG).2 = some (prev, zeroRNG1)
    rw [hc]
    cases fuel with
    | zero => unfold compute_time_loop; rw [if_neg (not_lt.mpr hle)]
    | succ f => unfold compute_time_loop; rw [if_neg (not_lt.mpr hle)]
  · intro prev d fuel g hgt
    unfold compute_time
    rw [if_pos rfl]
    show compute_time_loop prev fuel (compute_time_candidate prev g).1
      (compute_time_candidate prev g).2 = none
    exact compute_time_loop_none hgt fuel _ _
      (compute_time_candidate_ge prev (le_of_lt (lt_trans (by norm_num) hgt)) g)

/-- C10, witness: the theorem applied at previous time 100 (terminates with value
100) and at previous time 86401 (never returns). -/
theorem C10_compute_time_termination_witness :
    ((0:ℤ) ≤ 100 ∧ (100:ℤ) ≤ 86400 ∧
      compute_time ((100:ℤ), 0) 0 2 zeroRNG = some (100, zeroRNG1)) ∧
    ((86400:ℤ) < 86401 ∧ compute_time ((86401:ℤ), 0) 0 5 zeroRNG = none) :=
  ⟨⟨by norm_num, by norm_num,
      C10_compute_time_termination.1 100 0 (by norm_num) (by norm_num) 2⟩,
    ⟨by norm_num, C10_compute_time_termination.2.1 86401 0 5 zeroRNG (by norm_num)⟩⟩

/-! ### Claim C9 — customer profile generation -/

/-- Row properties of one `generate_customer_profiles_table` loop iteration when
the oracle stream stays in `[0,1)`: the stated id, coordinates in `[0,100]`,
`mean_amount ∈ [5,100)`, `std_amount = mean_amount/2`,
`mean_nb_tx_per_day ∈ [0,4)`, flag false. -/
theorem generate_customer_profiles_row_props (cid : ℕ) (g : RNG)
    (hb : ∀ i, 0 ≤ g.vals i ∧ g.vals i < 1) :
    (generate_customer_profiles_row cid g).1.CUSTOMER_ID = cid ∧
    0 ≤ (generate_customer_profiles_row cid g).1.x_customer_id ∧
    (generate_customer_profiles_row cid g).1.x_customer_id ≤ 100 ∧
    0 ≤ (generate_customer_profiles_row cid g).1.y_customer_id ∧
    (generate_customer_profiles_row cid g).1.y_customer_id ≤ 100 ∧
    5 ≤ (generate_customer_profiles_row cid g).1.mean_amount ∧
    (generate_customer_profiles_row cid g).1.mean_amount < 100 ∧
    (generate_customer_profiles_row cid g).1.std_amount =
      (generate_customer_profiles_row cid g).1.mean_amount / 2 ∧
    0 ≤ (generate_customer_profiles_row cid g).1.mean_nb_tx_per_day ∧
    (generate_customer_profiles_row cid g).1.mean_nb_tx_per_day < 4 ∧
    (generate_customer_profiles_row cid g).1.compromised = false := by
  obtain ⟨h0, h1⟩ := hb g.idx
  obtain ⟨h2, h3⟩ := hb (g.idx + 1)
  obtain ⟨h4, h5⟩ := hb (g.idx + 2)
  obtain ⟨h6, h7⟩ := hb (g.idx + 3)
  unfold generate_customer_profiles_row npUniform RNG.next
  refine ⟨rfl, by nlinarith, by nlinarith, by nlinarith, by nlinarith, by nlinarith,
    by nlinarith, rfl, by nlinarith, by nlinarith, rfl⟩

/-- Every row of the `generate_customer_profiles_table` loop satisfies the row
properties, with ids increasing from the starting id. -/
theorem generate_customer_profiles_aux_props :
    ∀ (n cid : ℕ) (g : RNG), (∀ i, 0 ≤ g.vals i ∧ g.vals i < 1) →
      ∀ (k : ℕ) (p : CustomerProfile),
        (generate_customer_profiles_aux n cid g).1[k]? = some p →
        p.CUSTOMER_ID = cid + k ∧
        0 ≤ p.x_customer_id ∧ p.x_customer_id ≤ 100 ∧
        0 ≤ p.y_customer_id ∧ p.y_customer_id ≤ 100 ∧
        5 ≤ p.mean_amount ∧ p.mean_amount < 100 ∧
        p.std_amount = p.mean_amount / 2 ∧
        0 ≤ p.mean_nb_tx_per_day ∧ p.mean_nb_tx_per_day < 4 ∧
        p.compromised = false := by
  intro n
  induction n with
  | zero =>
    intro cid g hb k p h
    simp [generate_customer_profiles_aux] at h
  | succ m ih =>
    intro cid g hb k p h
    rw [generate_customer_profiles_aux] at h
    cases k with
    | zero =>
      rw [List.getElem?_cons_zero] at h
      obtain rfl := Option.some.inj h
      simpa using generate_customer_profiles_row_props cid g hb
    | succ k =>
      rw [List.getElem?_cons_succ] at h
      obtain ⟨hid, hrest⟩ := ih (cid + 1) (generate_customer_profiles_row cid g).2
        hb k p h
      exact ⟨by omega, hrest⟩

/-- C9: `generate_customer_profiles_table` ignores the ambient generator state
(`np.random.seed(random_state)` replaces it), so its output is determined by
`n_customers` and `random_state` alone; and, whenever the seeded oracle stream
stays in `[0,1)`, row `k` has `CUSTOMER_ID = k`, coordinates drawn in `[0,100]`,
`mean_amount` in `[5,100)`, `std_amount = mean_amount/2`, `mean_nb_tx_per_day` in
`[0,4)`, and `compromised = false`. -/
theorem C9_customer_profiles_table :
    (∀ (mt : ℕ → ℕ → ℚ) (n s : ℕ) (amb1 amb2 : RNG),
      generate_customer_profiles_table mt n s amb1 =
        generate_customer_profiles_table mt n s amb2) ∧
    (∀ (mt : ℕ → ℕ → ℚ) (n s : ℕ) (amb : RNG),
      (∀ i, 0 ≤ mt s i ∧ mt s i < 1) →
      ∀ (k : ℕ) (p : CustomerProfile),
        (generate_customer_profiles_table mt n s amb).1[k]? = some p →
        p.CUSTOMER_ID = k ∧
        0 ≤ p.x_customer_id ∧ p.x_customer_id ≤ 100 ∧
        0 ≤ p.y_customer_id ∧ p.y_customer_id ≤ 100 ∧
        5 ≤ p.mean_amount ∧ p.mean_amount < 100 ∧
        p.std_amount = p.mean_amount / 2 ∧
        0 ≤ p.mean_nb_tx_per_day ∧ p.mean_nb_tx_per_day < 4 ∧
        p.compromised = false) := by
  refine ⟨fun mt n s amb1 amb2 => rfl, fun mt n s amb hb k p h => ?_⟩
  have hprops := generate_customer_profiles_aux_props n 0 ⟨mt s, 0⟩ hb k p h
  simpa using hprops

/-- C9, witness: the theorem applied to the all-zero stream family with one
customer: the produced row is `prof9` and satisfies all stated properties. -/
theorem C9_customer_profiles_table_witness :
    (∀ i, 0 ≤ mt0 0 i ∧ mt0 0 i < 1) ∧
    (generate_customer_profiles_table mt0 1 0 zeroRNG).1[0]? = some prof9 ∧
    (prof9.CUSTOMER_ID = 0 ∧
      0 ≤ prof9.x_customer_id ∧ prof9.x_customer_id ≤ 100 ∧
      0 ≤ prof9.y_customer_id ∧ prof9.y_customer_id ≤ 100 ∧
      5 ≤ prof9.mean_amount ∧ prof9.mean_amount < 100 ∧
      prof9.std_amount = prof9.mean_amount / 2 ∧
      0 ≤ prof9.mean_nb_tx_per_day ∧ prof9.mean_nb_tx_per_day < 4 ∧
      prof9.compromised = false) := by
  have hb : ∀ i, 0 ≤ mt0 0 i ∧ mt0 0 i < 1 := fun i => ⟨le_refl 0, by norm_num [mt0]⟩
  have hget : (generate_customer_profiles_table mt0 1 0 zeroRNG).1[0]? = some prof9 := by
    norm_num [generate_customer_profiles_table, generate_customer_profiles_aux,
      generate_customer_profiles_row, npUniform, RNG.next, mt0, prof9]
  exact ⟨hb, hget, C9_customer_profiles_table.2 mt0 1 0 zeroRNG hb 0 prof9 hget⟩

/-! ### Claim C6 — terminals within radius -/

/-- The executable comparison `sqrtLt s r` decides exactly the real-number
comparison `√s < r` performed (on floats) by `radius.py`. -/
theorem sqrtLt_correct (s r : ℚ) :
    sqrtLt s r = true ↔ Real.sqrt (s : ℝ) < (r : ℝ) := by
  unfold sqrtLt
  rw [Bool.and_eq_true, decide_eq_true_eq, decide_eq_true_eq]
  constructor
  · rintro ⟨hr, hlt⟩
    have hr' : (0:ℝ) < (r : ℝ) := by exact_mod_cast hr
    rw [Real.sqrt_lt' hr']
    exact_mod_cast hlt
  · intro h
    have hr' : (0:ℝ) < (r : ℝ) := lt_of_le_of_lt (Real.sqrt_nonneg _) h
    refine ⟨by exact_mod_cast hr', ?_⟩
    have hsq := (Real.sqrt_lt' hr').mp h
    exact_mod_cast hsq

/-- C6: `get_list_terminals_within_radius` returns exactly the indices (in
increasing input order) of the terminals whose Euclidean distance to the
customer's location is strictly below `r`; the weighted variant applies the same
selection rule and pairs each selected index with its squared distance, whose
weight is `exp(−squared_distance)`; when no terminal is within `r` both return an
empty selection. -/
theorem C6_radius_selection :
    ∀ (prof : CustomerProfile) (x y : ℚ) (ts : List (ℚ × ℚ)) (r : ℚ),
      (∀ i : ℕ, i ∈ get_list_terminals_within_radius prof ts r ↔
        i < ts.length ∧
        Real.sqrt ((squaredDist (prof.x_customer_id, prof.y_customer_id)
          (ts.getD i (0, 0)) : ℚ) : ℝ) < (r : ℝ)) ∧
      List.Pairwise (· < ·) (get_list_terminals_within_radius prof ts r) ∧
      (∀ i : ℕ, i ∈ (get_list_terminals_within_radius_from_point x y ts r).1 ↔
        i < ts.length ∧
        Real.sqrt ((squaredDist (x, y) (ts.getD i (0, 0)) : ℚ) : ℝ) < (r : ℝ)) ∧
      List.Pairwise (· < ·) (get_list_terminals_within_radius_from_point x y ts r).1 ∧
      (get_list_terminals_within_radius_from_point x y ts r).2 =
        (get_list_terminals_within_radius_from_point x y ts r).1.map
          (fun i => squaredDist (x, y) (ts.getD i (0, 0))) ∧
      ((get_list_terminals_within_radius_from_point x y ts r).2.map
          (fun s : ℚ => Real.exp (-(s : ℝ)))) =
        (get_list_terminals_within_radius_from_point x y ts r).1.map
          (fun i => Real.exp (-((squaredDist (x, y) (ts.getD i (0, 0)) : ℚ) : ℝ))) ∧
      ((∀ i, i < ts.length →
          ¬ Real.sqrt ((squaredDist (x, y) (ts.getD i (0, 0)) : ℚ) : ℝ) < (r : ℝ)) →
        get_list_terminals_within_radius_from_point x y ts r = ([], [])) ∧
      ((∀ i, i < ts.length →
          ¬ Real.sqrt ((squaredDist (prof.x_customer_id, prof.y_customer_id)
            (ts.getD i (0, 0)) : ℚ) : ℝ) < (r : ℝ)) →
        get_list_terminals_within_radius prof ts r = []) := by
  intro prof x y ts r
  refine ⟨?_, ?_, ?_, ?_, rfl, ?_, ?_, ?_⟩
  · intro i
    unfold get_list_terminals_within_radius
    rw [List.mem_filter, List.mem_range, sqrtLt_correct]
  · exact List.Pairwise.filter _ (List.pairwise_lt_range _)
  · intro i
    show i ∈ (List.range ts.length).filter _ ↔ _
    rw [List.mem_filter, List.mem_range, sqrtLt_correct]
  · exact List.Pairwise.filter _ (List.pairwise_lt_range _)
  · rw [show (get_list_terminals_within_radius_from_point x y ts r).2 =
      (get_list_terminals_within_radius_from_point x y ts r).1.map
        (fun i => squaredDist (x, y) (ts.getD i (0, 0))) from rfl, List.map_map]
    rfl
  · intro hno
    have hav : ((List.range ts.length).filter fun i =>
        sqrtLt (squaredDist (x, y) (ts.getD i (0, 0))) r) = [] := by
      refine List.filter_eq_nil_iff.mpr ?_
      intro a ha hsel
      exact hno a (List.mem_range.mp ha) ((sqrtLt_correct _ _).mp hsel)
    show ((List.range ts.length).filter _,
      ((List.range ts.length).filter _).map _) = ([], [])
    rw [hav]
    rfl
  · intro hno
    refine List.filter_eq_nil_iff.mpr ?_
    intro a ha hsel
    exact hno a (List.mem_range.mp ha) ((sqrtLt_correct _ _).mp hsel)

/-- C6, witness: with the single terminal at (3,4) and radius 0 no terminal is
selected, and both functions return an empty selection (the weighted variant an
empty weight array as well). -/
theorem C6_radius_selection_witness :
    (∀ i, i < tsC6.length →
      ¬ Real.sqrt ((squaredDist (prof9.x_customer_id, prof9.y_customer_id)
        (tsC6.getD i (0, 0)) : ℚ) : ℝ) < ((0 : ℚ) : ℝ)) ∧
    get_list_terminals_within_radius prof9 tsC6 0 = [] ∧
    get_list_terminals_within_radius_from_point 0 0 tsC6 0 = ([], []) := by
  have hno : ∀ (a b : ℚ) (i : ℕ), i < tsC6.length →
      ¬ Real.sqrt ((squaredDist (a, b) (tsC6.getD i (0, 0)) : ℚ) : ℝ) < ((0 : ℚ) : ℝ) := by
    intro a b i _
    rw [show (((0 : ℚ)) : ℝ) = 0 by norm_num]
    exact not_lt.mpr (Real.sqrt_nonneg _)
  exact ⟨hno prof9.x_customer_id prof9.y_customer_id,
    (C6_radius_selection prof9 0 0 tsC6 0).2.2.2.2.2.2.2
      (hno prof9.x_customer_id prof9.y_customer_id),
    (C6_radius_selection prof9 0 0 tsC6 0).2.2.2.2.2.2.1 (hno 0 0)⟩

/-! ### Simulator lemmas for claims C1–C4 -/

/-- A compromised customer stays compromised through `compromise_user`. -/
theorem compromise_user_of_compromised (prof : CustomerProfile) (p : ℚ) (g : RNG)
    (h : prof.compromised = true) : compromise_user prof p g = (true, g) := by
  unfold compromise_user
  rw [if_pos h]

/-- Every transaction present after a genuine-generation call was either already
recorded or is a new transaction of the given day whose fraud label equals the
customer's current compromised flag. -/
theorem generate_genuine_transactions_mem :
    ∀ (nb : ℕ) (txs : List Tx) (prof : CustomerProfile) (day : ℕ) (npg pyg : RNG),
      ∀ tx ∈ (generate_genuine_transactions txs nb prof day npg pyg).1,
        tx ∈ txs ∨ (tx.TX_TIME_DAYS = day ∧ tx.TX_FRAUD = prof.compromised) := by
  intro nb
  induction nb with
  | zero =>
    intro txs prof day npg pyg tx htx
    unfold generate_genuine_transactions at htx
    by_cases he : prof.available_terminals.isEmpty
    · rw [if_pos he] at htx
      exact Or.inl htx
    · rw [if_neg he] at htx
      exact Or.inl htx
  | succ n ih =>
    intro txs prof day npg pyg tx htx
    unfold generate_genuine_transactions at htx
    by_cases he : prof.available_terminals.isEmpty
    · rw [if_pos he] at htx
      exact Or.inl htx
    · rw [if_neg he] at htx
      replace htx : tx ∈ (generate_genuine_transactions
          (txs ++ [(genuine_tx prof day npg pyg).1]) n prof day
          (genuine_tx prof day npg pyg).2.1 (genuine_tx prof day npg pyg).2.2).1 := htx
      rcases ih _ prof day _ _ tx htx with hin | hp
      · rcases List.mem_append.mp hin with h1 | h2
        · exact Or.inl h1
        · have heq : tx = (genuine_tx prof day npg pyg).1 := by simpa using h2
          exact Or.inr (heq ▸ ⟨rfl, rfl⟩)
      · exact Or.inr hp

/-- A transaction materialized by `fraud_tx` carries the given day and the fraud
label. -/
theorem fraud_tx_spec {cfg : SimConfig} {prof : CustomerProfile} {prev : Tx}
    {day fuel : ℕ} {npg pyg : RNG} {otx : Option Tx} {npg' pyg' : RNG}
    (h : fraud_tx cfg prof prev day fuel npg pyg = some (otx, npg', pyg')) :
    ∀ tx : Tx, otx = some tx → tx.TX_TIME_DAYS = day ∧ tx.TX_FRAUD = true := by
  intro tx hotx
  unfold fraud_tx at h
  cases h1 : compute_time (prev.TX_TIME_SECONDS_INSIDE_DAY, prev.TX_TIME_DAYS) day
      fuel npg with
  | none =>
    rw [h1] at h
    simp only [] at h
    exact absurd h (by simp)
  | some pr =>
    obtain ⟨t, npg1⟩ := pr
    rw [h1] at h
    simp only [] at h
    by_cases hfr : prev.TX_FRAUD = true
    · rw [if_pos hfr] at h
      cases h2 : compute_new_centre (txCentre cfg prev).1 (txCentre cfg prev).2
          fuel npg1 with
      | none =>
        rw [h2] at h
        simp only [] at h
        exact absurd h (by simp)
      | some pc =>
        obtain ⟨centre, npg2⟩ := pc
        rw [h2] at h
        simp only [] at h
        by_cases hsel : (get_list_terminals_within_radius_from_point centre.1
            centre.2 cfg.x_y_terminals cfg.radius).1.isEmpty = true
        · rw [if_pos hsel] at h
          simp only [Option.some.injEq, Prod.mk.injEq] at h
          obtain ⟨h3, -⟩ := h
          rw [← h3] at hotx
          exact absurd hotx (by simp)
        · rw [if_neg hsel] at h
          simp only [Option.some.injEq, Prod.mk.injEq] at h
          obtain ⟨h3, -⟩ := h
          rw [← h3] at hotx
          obtain rfl := Option.some.inj hotx
          exact ⟨rfl, rfl⟩
    · rw [if_neg hfr] at h
      cases h2 : compute_first_centre fuel npg1 with
      | none =>
        rw [h2] at h
        simp only [] at h
        exact absurd h (by simp)
      | some pc =>
        obtain ⟨centre, npg2⟩ := pc
        rw [h2] at h
        simp only [] at h
        by_cases hsel : (get_list_terminals_within_radius_from_point centre.1
            centre.2 cfg.x_y_terminals cfg.radius).1.isEmpty = true
        · rw [if_pos hsel] at h
          simp only [Option.some.injEq, Prod.mk.injEq] at h
          obtain ⟨h3, -⟩ := h
          rw [← h3] at hotx
          exact absurd hotx (by simp)
        · rw [if_neg hsel] at h
          simp only [Option.some.injEq, Prod.mk.injEq] at h
          obtain ⟨h3, -⟩ := h
          rw [← h3] at hotx
          obtain rfl := Option.some.inj hotx
          exact ⟨rfl, rfl⟩

/-- Every transaction present after a fraudulent-generation call was either already
recorded or is a new fraud-labeled transaction of the given day. -/
theorem generate_fraudulent_transactions_mem :
    ∀ (nb : ℕ) (cfg : SimConfig) (txs : List Tx) (prof : CustomerProfile)
      (day fuel : ℕ) (npg pyg : RNG) (txs' : List Tx) (npg' pyg' : RNG),
      generate_fraudulent_transactions cfg txs nb prof day fuel npg pyg =
        some (txs', npg', pyg') →
      ∀ tx ∈ txs', tx ∈ txs ∨ (tx.TX_TIME_DAYS = day ∧ tx.TX_FRAUD = true) := by
  intro nb
  induction nb with
  | zero =>
    intro cfg txs prof day fuel npg pyg txs' npg' pyg' h tx htx
    unfold generate_fraudulent_transactions at h
    simp only [Option.some.injEq, Prod.mk.injEq] at h
    obtain ⟨h1, -⟩ := h
    exact Or.inl (h1 ▸ htx)
  | succ n ih =>
    intro cfg txs prof day fuel npg pyg txs' npg' pyg' h tx htx
    unfold generate_fraudulent_transactions at h
    cases hl : txs.getLast? with
    | none =>
      rw [hl] at h
      simp only [Option.some.injEq, Prod.mk.injEq] at h
      obtain ⟨h1, -⟩ := h
      exact Or.inl (h1 ▸ htx)
    | some prev =>
      rw [hl] at h
      simp only [] at h
      cases hf : fraud_tx cfg prof prev day fuel npg pyg with
      | none =>
        rw [hf] at h
        simp only [] at h
        exact absurd h (by simp)
      | some pr =>
        obtain ⟨otx, npg1, pyg1⟩ := pr
        rw [hf] at h
        simp only [] at h
        replace h : generate_fraudulent_transactions cfg
            (txs ++ (otx.map fun t => [t]).getD []) n prof day fuel npg1 pyg1 =
            some (txs', npg', pyg') := h
        rcases ih cfg _ prof day fuel npg1 pyg1 txs' npg' pyg' h tx htx with hin | hp
        · rcases List.mem_append.mp hin with h1 | h2
          · exact Or.inl h1
          · cases otx with
            | none => simp at h2
            | some t0 =>
              have heq : tx = t0 := by simpa using h2
              exact Or.inr (heq ▸ fraud_tx_spec hf t0 rfl)
        · exact Or.inr hp

/-- Full case analysis of one simulated day: the recorded log reflects the
resulting state; the compromised flag is preserved when already set; the counter
moves exactly with the fraud branch; the fraud branch needs recorded history and a
counter below the cap; and every new transaction belongs to the given day, with a
genuine-branch fraud label equal to the flag at the start of the day. -/
theorem simDay_spec (cfg : SimConfig) (fuel day : ℕ) (st st1 : SimState)
    (log : DayLog) (h : simDay cfg fuel day st = some (st1, log)) :
    log.flag = st1.profile.compromised ∧
    (st.profile.compromised = true → st1.profile.compromised = true) ∧
    log.counter = st1.days_from_compromission ∧
    (log.fired = true → st1.days_from_compromission = st.days_from_compromission + 1 ∧
      st.days_from_compromission < cfg.max_days_from_compromission) ∧
    (log.fired = false → st1.days_from_compromission = st.days_from_compromission) ∧
    (st.txs.length = 0 → log.fired = false) ∧
    (∀ tx ∈ st1.txs, tx ∈ st.txs ∨ (tx.TX_TIME_DAYS = day ∧
      (log.fired = false → tx.TX_FRAUD = st.profile.compromised))) := by
  unfold simDay at h
  simp only [] at h
  by_cases hf : (st.profile.compromised && decide (0 < st.txs.length) &&
      decide (st.days_from_compromission < cfg.max_days_from_compromission)) = true
  · rw [if_pos hf] at h
    simp only [Bool.and_eq_true, decide_eq_true_eq] at hf
    obtain ⟨⟨-, hlen⟩, hcap⟩ := hf
    cases hg : generate_fraudulent_transactions cfg st.txs
        ((npPoisson st.profile.mean_nb_tx_per_day st.npg).1 + 1) st.profile day fuel
        (npPoisson st.profile.mean_nb_tx_per_day st.npg).2 st.pyg with
    | none =>
      rw [hg] at h
      simp only [] at h
      exact absurd h (by simp)
    | some pr =>
      obtain ⟨txs1, npg1, pyg1⟩ := pr
      rw [hg] at h
      simp only [] at h
      simp only [Option.some.injEq, Prod.mk.injEq] at h
      obtain ⟨h1, h2⟩ := h
      subst h1
      subst h2
      refine ⟨rfl, fun hc => hc, rfl, fun _ => ⟨rfl, hcap⟩,
        fun hff => absurd hff (by simp), fun hlen0 => absurd hlen (by omega),
        fun tx htx => ?_⟩
      rcases generate_fraudulent_transactions_mem _ cfg st.txs st.profile day fuel
        _ _ txs1 npg1 pyg1 hg tx htx with hin | ⟨hd, -⟩
      · exact Or.inl hin
      · exact Or.inr ⟨hd, fun hff => absurd hff (by simp)⟩
  · rw [if_neg hf] at h
    simp only [Option.some.injEq, Prod.mk.injEq] at h
    obtain ⟨h1, h2⟩ := h
    subst h1
    subst h2
    refine ⟨rfl, ?_, rfl, fun hff => absurd hff (by simp), fun _ => rfl,
      fun _ => rfl, fun tx htx => ?_⟩
    · intro hc
      show (compromise_user st.profile cfg.compromission_probability _).1 = true
      rw [compromise_user_of_compromised st.profile _ _ hc]
    · rcases generate_genuine_transactions_mem _ st.txs st.profile day _ st.pyg tx
        htx with hin | ⟨hd, hfr⟩
      · exact Or.inl hin
      · exact Or.inr ⟨hd, fun _ => hfr⟩

/-- Inversion of a zero-day loop. -/
theorem simDaysAux_zero_inv {cfg : SimConfig} {fuel day : ℕ} {st stF : SimState}
    {logs : List DayLog} (h : simDaysAux cfg fuel 0 day st = some (stF, logs)) :
    stF = st ∧ logs = [] := by
  unfold simDaysAux at h
  simp only [Option.some.injEq, Prod.mk.injEq] at h
  exact ⟨h.1.symm, h.2.symm⟩

/-- Inversion of a successor day loop into its first day and the remaining days. -/
theorem simDaysAux_succ_inv {cfg : SimConfig} {fuel n day : ℕ} {st stF : SimState}
    {logs : List DayLog}
    (h : simDaysAux cfg fuel (n + 1) day st = some (stF, logs)) :
    ∃ (st1 : SimState) (log : DayLog) (logs2 : List DayLog),
      simDay cfg fuel day st = some (st1, log) ∧
      simDaysAux cfg fuel n (day + 1) st1 = some (stF, logs2) ∧
      logs = log :: logs2 := by
  rw [simDaysAux] at h
  cases hd : simDay cfg fuel day st with
  | none =>
    rw [hd] at h
    simp only [] at h
    exact absurd h (by simp)
  | some pr =>
    obtain ⟨st1, log⟩ := pr
    rw [hd] at h
    simp only [] at h
    cases ha : simDaysAux cfg fuel n (day + 1) st1 with
    | none =>
      rw [ha] at h
      simp only [] at h
      exact absurd h (by simp)
    | some pr2 =>
      obtain ⟨stF2, logs2⟩ := pr2
      rw [ha] at h
      simp only [Option.some.injEq, Prod.mk.injEq] at h
      obtain ⟨h1, h2⟩ := h
      subst h1
      subst h2
      exact ⟨st1, log, logs2, rfl, ha, rfl⟩

/-- Once the compromised flag is set at the start of a day-loop run, every
subsequent end-of-day log records it set. -/
theorem simDaysAux_flags_true (cfg : SimConfig) (fuel : ℕ) :
    ∀ (n day : ℕ) (st stF : SimState) (logs : List DayLog),
      simDaysAux cfg fuel n day st = some (stF, logs) →
      st.profile.compromised = true → ∀ l ∈ logs, l.flag = true := by
  intro n
  induction n with
  | zero =>
    intro day st stF logs h hc l hl
    obtain ⟨-, rfl⟩ := simDaysAux_zero_inv h
    simp at hl
  | succ m ih =>
    intro day st stF logs h hc l hl
    obtain ⟨st1, log, logs2, hd, ha, rfl⟩ := simDaysAux_succ_inv h
    obtain ⟨hflag, hpres, -⟩ := simDay_spec cfg fuel day st st1 log hd
    have hc1 : st1.profile.compromised = true := hpres hc
    rcases List.mem_cons.mp hl with rfl | hl2
    · rw [hflag]
      exact hc1
    · exact ih (day + 1) st1 stF logs2 ha hc1 l hl2

/-- The end-of-day compromised flags of a day-loop run are monotone: a set flag
stays set on every later day. -/
theorem simDaysAux_pairwise_flag (cfg : SimConfig) (fuel : ℕ) :
    ∀ (n day : ℕ) (st stF : SimState) (logs : List DayLog),
      simDaysAux cfg fuel n day st = some (stF, logs) →
      List.Pairwise (fun a b : DayLog => a.flag = true → b.flag = true) logs := by
  intro n
  induction n with
  | zero =>
    intro day st stF logs h
    obtain ⟨-, rfl⟩ := simDaysAux_zero_inv h
    exact List.Pairwise.nil
  | succ m ih =>
    intro day st stF logs h
    obtain ⟨st1, log, logs2, hd, ha, rfl⟩ := simDaysAux_succ_inv h
    obtain ⟨hflag, -⟩ := simDay_spec cfg fuel day st st1 log hd
    refine List.Pairwise.cons (fun b hb hlf => ?_) (ih (day + 1) st1 stF logs2 ha)
    exact simDaysAux_flags_true cfg fuel m (day + 1) st1 stF logs2 ha
      (hflag ▸ hlf) b hb

/-- The `days_from_compromission` counter advances exactly with the fired days and
never exceeds the cap. -/
theorem simDaysAux_counter (cfg : SimConfig) (fuel : ℕ) :
    ∀ (n day : ℕ) (st stF : SimState) (logs : List DayLog),
      simDaysAux cfg fuel n day st = some (stF, logs) →
      stF.days_from_compromission =
        st.days_from_compromission + (logs.countP fun l => l.fired) ∧
      (st.days_from_compromission ≤ cfg.max_days_from_compromission →
        stF.days_from_compromission ≤ cfg.max_days_from_compromission) := by
  intro n
  induction n with
  | zero =>
    intro day st stF logs h
    obtain ⟨rfl, rfl⟩ := simDaysAux_zero_inv h
    simp
  | succ m ih =>
    intro day st stF logs h
    obtain ⟨st1, log, logs2, hd, ha, rfl⟩ := simDaysAux_succ_inv h
    obtain ⟨-, -, -, hfi, hnfi, -⟩ := simDay_spec cfg fuel day st st1 log hd
    obtain ⟨ihc, ihb⟩ := ih (day + 1) st1 stF logs2 ha
    rw [List.countP_cons]
    cases hf : log.fired with
    | true =>
      obtain ⟨h1, h2⟩ := hfi hf
      constructor
      · rw [ihc, h1]
        simp [hf]
        omega
      · intro _
        exact ihb (by omega)
    | false =>
      have h1 := hnfi hf
      constructor
      · rw [ihc, h1]
        simp [hf]
      · intro hle
        exact ihb (by omega)

/-- Once the counter has reached the cap, no later day fires the fraud branch. -/
theorem simDaysAux_nofire (cfg : SimConfig) (fuel : ℕ) :
    ∀ (n day : ℕ) (st stF : SimState) (logs : List DayLog),
      simDaysAux cfg fuel n day st = some (stF, logs) →
      cfg.max_days_from_compromission ≤ st.days_from_compromission →
      ∀ l ∈ logs, l.fired = false := by
  intro n
  induction n with
  | zero =>
    intro day st stF logs h hge l hl
    obtain ⟨-, rfl⟩ := simDaysAux_zero_inv h
    simp at hl
  | succ m ih =>
    intro day st stF logs h hge l hl
    obtain ⟨st1, log, logs2, hd, ha, rfl⟩ := simDaysAux_succ_inv h
    obtain ⟨-, -, -, hfi, hnfi, -⟩ := simDay_spec cfg fuel day st st1 log hd
    have hf : log.fired = false := by
      cases hf : log.fired with
      | true => exact absurd (hfi hf).2 (by omega)
      | false => rfl
    rcases List.mem_cons.mp hl with rfl | hl2
    · exact hf
    · exact ih (day + 1) st1 stF logs2 ha (by rw [hnfi hf]; exact hge) l hl2

/-- Pairwise over the logs: after any day whose end-of-day counter has reached the
cap, no later day fires the fraud branch. -/
theorem simDaysAux_pairwise_counter (cfg : SimConfig) (fuel : ℕ) :
    ∀ (n day : ℕ) (st stF : SimState) (logs : List DayLog),
      simDaysAux cfg fuel n day st = some (stF, logs) →
      List.Pairwise (fun a b : DayLog =>
        cfg.max_days_from_compromission ≤ a.counter → b.fired = false) logs := by
  intro n
  induction n with
  | zero =>
    intro day st stF logs h
    obtain ⟨-, rfl⟩ := simDaysAux_zero_inv h
    exact List.Pairwise.nil
  | succ m ih =>
    intro day st stF logs h
    obtain ⟨st1, log, logs2, hd, ha, rfl⟩ := simDaysAux_succ_inv h
    obtain ⟨-, -, hcnt, -⟩ := simDay_spec cfg fuel day st st1 log hd
    refine List.Pairwise.cons (fun b hb hge => ?_) (ih (day + 1) st1 stF logs2 ha)
    exact simDaysAux_nofire cfg fuel m (day + 1) st1 stF logs2 ha
      (by rw [← hcnt]; exact hge) b hb

/-- Every transaction recorded by a day-loop run starting at `day` was either
already recorded or belongs to a day at least `day`. -/
theorem simDaysAux_txs (cfg : SimConfig) (fuel : ℕ) :
    ∀ (n day : ℕ) (st stF : SimState) (logs : List DayLog),
      simDaysAux cfg fuel n day st = some (stF, logs) →
      ∀ tx ∈ stF.txs, tx ∈ st.txs ∨ day ≤ tx.TX_TIME_DAYS := by
  intro n
  induction n with
  | zero =>
    intro day st stF logs h tx htx
    obtain ⟨rfl, -⟩ := simDaysAux_zero_inv h
    exact Or.inl htx
  | succ m ih =>
    intro day st stF logs h tx htx
    obtain ⟨st1, log, logs2, hd, ha, -⟩ := simDaysAux_succ_inv h
    obtain ⟨-, -, -, -, -, -, hmem⟩ := simDay_spec cfg fuel day st st1 log hd
    rcases ih (day + 1) st1 stF logs2 ha tx htx with h1 | h2
    · rcases hmem tx h1 with hin | ⟨hdj, -⟩
      · exact Or.inl hin
      · exact Or.inr (by omega)
    · exact Or.inr (by omega)

/-! ### Claims C1–C4 — the per-customer day loop -/

/-- C1: two runs of the per-customer simulation for the SAME customer (same
profile, hence the same `random.seed(CUSTOMER_ID)` python stream) produce
different transaction sequences when the ambient NumPy global state differs —
here `ambB` is `ambA` after one draw, as after an earlier customer's simulation.
`random.seed(int(customer_profile['CUSTOMER_ID']))` reseeds only the `random`
module while `np.random.poisson` and every `np.random.normal` draw continue the
global NumPy stream, so the customer's stream is NOT reproducible from the
customer-ID seed alone. -/
theorem C1_customer_stream_depends_on_ambient_numpy_state :
    runLogs cfg1 mt0 profW ambA 3 ≠ runLogs cfg1 mt0 profW ambB 3 := by
  have hA : runLogs cfg1 mt0 profW ambA 3 =
      some ([⟨30800, 0, 0, 0, 15, false⟩], [⟨false, false, 0⟩]) := by
    norm_num [runLogs, generate_transactions_table, simDaysAux, simDay, npPoisson,
      npNormal, npUniform, RNG.next, int_trunc, rat_abs, int_abs, round2,
      generate_genuine_transactions, genuine_tx, genuineAmount, pyChoice,
      compromise_user, compute_first_time, mt0, cfg1, profW, ambA, round_eq,
      List.isEmpty_cons, List.isEmpty_nil]
  have hB : runLogs cfg1 mt0 profW ambB 3 =
      some ([⟨30800, 0, 0, 0, 15, false⟩, ⟨30800, 0, 0, 0, 15, false⟩],
        [⟨false, false, 0⟩]) := by
    norm_num [runLogs, generate_transactions_table, simDaysAux, simDay, npPoisson,
      npNormal, npUniform, RNG.next, int_trunc, rat_abs, int_abs, round2,
      generate_genuine_transactions, genuine_tx, genuineAmount, pyChoice,
      compromise_user, compute_first_time, mt0, cfg1, profW, ambB, round_eq,
      List.isEmpty_cons, List.isEmpty_nil]
  rw [hA, hB]
  simp

/-- C2: within one simulated run, the end-of-day compromised flag is monotone:
for any two days d1 < d2 of the run, a flag set at the end of d1 is still set at
the end of d2. -/
theorem C2_compromised_flag_monotone (cfg : SimConfig) (pyMt : ℕ → ℕ → ℚ)
    (prof : CustomerProfile) (amb : RNG) (fuel : ℕ) (txs : List Tx)
    (logs : List DayLog) (h : runLogs cfg pyMt prof amb fuel = some (txs, logs)) :
    List.Pairwise (fun a b : DayLog => a.flag = true → b.flag = true) logs := by
  unfold runLogs at h
  rw [Option.map_eq_some'] at h
  obtain ⟨⟨stF, logs2⟩, ha, hf⟩ := h
  simp only [Prod.mk.injEq] at hf
  obtain ⟨-, rfl⟩ := hf
  exact simDaysAux_pairwise_flag cfg fuel cfg.nb_days 0
    ⟨prof, [], 0, amb, ⟨pyMt prof.CUSTOMER_ID, 0⟩⟩ stF logs2 ha

/-- C2, witness: the monotonicity theorem applied to the concrete two-day run in
which the customer becomes compromised after day 0 (flags `[true, true]`). -/
theorem C2_compromised_flag_monotone_witness :
    runLogs cfgC7 mt0 profW ambC7 3 = some (txsC7, logsC7) ∧
    List.Pairwise (fun a b : DayLog => a.flag = true → b.flag = true) logsC7 := by
  have h : runLogs cfgC7 mt0 profW ambC7 3 = some (txsC7, logsC7) := by
    norm_num [runLogs, generate_transactions_table, simDaysAux, simDay, npPoisson,
      npNormal, npUniform, RNG.next, int_trunc, rat_abs, int_abs, round2,
      generate_genuine_transactions, genuine_tx, genuineAmount, pyChoice,
      compromise_user, generate_fraudulent_transactions, fraud_tx, compute_time,
      compute_time_candidate, compute_time_loop, compute_first_time,
      compute_first_amount, compute_new_amt, compute_first_centre,
      compute_new_centre, rejectLoop, centreOk, squaredDist, sqrtLt,
      get_list_terminals_within_radius_from_point, txCentre, mt0, cfgC7, profW,
      ambC7, txsC7, logsC7, txC7, round_eq, List.range_succ, List.range_zero,
      List.filter_append, List.filter_cons, List.filter_nil, List.isEmpty_cons,
      List.isEmpty_nil]
  exact ⟨h, C2_compromised_flag_monotone cfgC7 mt0 profW ambC7 3 txsC7 logsC7 h⟩

/-- C3: within one simulated run, the fraud branch fires on at most
`max_days_from_compromission` days, and once the counter has reached the cap no
later day fires it even though the flag stays set. -/
theorem C3_fraud_window_capped (cfg : SimConfig) (pyMt : ℕ → ℕ → ℚ)
    (prof : CustomerProfile) (amb : RNG) (fuel : ℕ) (txs : List Tx)
    (logs : List DayLog) (h : runLogs cfg pyMt prof amb fuel = some (txs, logs)) :
    (logs.countP fun l => l.fired) ≤ cfg.max_days_from_compromission ∧
    List.Pairwise (fun a b : DayLog =>
      cfg.max_days_from_compromission ≤ a.counter → b.fired = false) logs := by
  unfold runLogs at h
  rw [Option.map_eq_some'] at h
  obtain ⟨⟨stF, logs2⟩, ha, hf⟩ := h
  simp only [Prod.mk.injEq] at hf
  obtain ⟨-, rfl⟩ := hf
  have hc := simDaysAux_counter cfg fuel cfg.nb_days 0
    ⟨prof, [], 0, amb, ⟨pyMt prof.CUSTOMER_ID, 0⟩⟩ stF logs2 ha
  constructor
  · have h1 : stF.days_from_compromission =
        0 + (logs2.countP fun l => l.fired) := hc.1
    have h2 : stF.days_from_compromission ≤ cfg.max_days_from_compromission :=
      hc.2 (Nat.zero_le _)
    omega
  · exact simDaysAux_pairwise_counter cfg fuel cfg.nb_days 0
      ⟨prof, [], 0, amb, ⟨pyMt prof.CUSTOMER_ID, 0⟩⟩ stF logs2 ha

/-- C3, witness: the cap theorem applied to the concrete run: one fired day out of
two, below the cap 3, and the counter trace `[0, 1]`. -/
theorem C3_fraud_window_capped_witness :
    runLogs cfgC7 mt0 profW ambC7 3 = some (txsC7, logsC7) ∧
    (logsC7.countP fun l => l.fired) ≤ cfgC7.max_days_from_compromission ∧
    List.Pairwise (fun a b : DayLog =>
      cfgC7.max_days_from_compromission ≤ a.counter → b.fired = false) logsC7 := by
  have h : runLogs cfgC7 mt0 profW ambC7 3 = some (txsC7, logsC7) := by
    norm_num [runLogs, generate_transactions_table, simDaysAux, simDay, npPoisson,
      npNormal, npUniform, RNG.next, int_trunc, rat_abs, int_abs, round2,
      generate_genuine_transactions, genuine_tx, genuineAmount, pyChoice,
      compromise_user, generate_fraudulent_transactions, fraud_tx, compute_time,
      compute_time_candidate, compute_time_loop, compute_first_time,
      compute_first_amount, compute_new_amt, compute_first_centre,
      compute_new_centre, rejectLoop, centreOk, squaredDist, sqrtLt,
      get_list_terminals_within_radius_from_point, txCentre, mt0, cfgC7, profW,
      ambC7, txsC7, logsC7, txC7, round_eq, List.range_succ, List.range_zero,
      List.filter_append, List.filter_cons, List.filter_nil, List.isEmpty_cons,
      List.isEmpty_nil]
  obtain ⟨h1, h2⟩ := C3_fraud_window_capped cfgC7 mt0 profW ambC7 3 txsC7 logsC7 h
  exact ⟨h, h1, h2⟩

/-- C4: the fraud branch never fires on day 0 of a run (there is no recorded
transaction yet), and if the customer starts uncompromised — as every customer
produced by `generate_customer_profiles_table` does — every day-0 transaction is
produced by the genuine path and labeled non-fraud. -/
theorem C4_day0_genuine_and_unlabeled (cfg : SimConfig) (pyMt : ℕ → ℕ → ℚ)
    (prof : CustomerProfile) (amb : RNG) (fuel : ℕ) (txs : List Tx)
    (logs : List DayLog) (h : runLogs cfg pyMt prof amb fuel = some (txs, logs)) :
    (∀ l : DayLog, logs[0]? = some l → l.fired = false) ∧
    (prof.compromised = false →
      ∀ tx ∈ txs, tx.TX_TIME_DAYS = 0 → tx.TX_FRAUD = false) := by
  unfold runLogs at h
  rw [Option.map_eq_some'] at h
  obtain ⟨⟨stF, logs2⟩, ha, hf⟩ := h
  simp only [Prod.mk.injEq] at hf
  obtain ⟨htxs, rfl⟩ := hf
  replace ha : simDaysAux cfg fuel cfg.nb_days 0
      ⟨prof, [], 0, amb, ⟨pyMt prof.CUSTOMER_ID, 0⟩⟩ = some (stF, logs2) := ha
  cases hnb : cfg.nb_days with
  | zero =>
    rw [hnb] at ha
    obtain ⟨rfl, rfl⟩ := simDaysAux_zero_inv ha
    constructor
    · intro l hl
      simp at hl
    · intro _ tx htx
      rw [← htxs] at htx
      exact absurd htx (by simp)
  | succ m =>
    rw [hnb] at ha
    obtain ⟨st1, log, logs2', hd, ha2, rfl⟩ := simDaysAux_succ_inv ha
    have hspec := simDay_spec cfg fuel 0 _ st1 log hd
    have hfired : log.fired = false := hspec.2.2.2.2.2.1 rfl
    constructor
    · intro l hl
      rw [List.getElem?_cons_zero] at hl
      obtain rfl := Option.some.inj hl
      exact hfired
    · intro hcomp tx htx hday
      rw [← htxs] at htx
      rcases simDaysAux_txs cfg fuel m 1 st1 stF logs2' ha2 tx htx with h1 | h2
      · rcases hspec.2.2.2.2.2.2 tx h1 with hin | ⟨-, hfr⟩
        · exact absurd hin (by simp)
        · exact (hfr hfired).trans hcomp
      · omega

/-- C4, witness: the day-0 theorem applied to the concrete run: the first day's
log is not fired, and the single day-0 transaction is labeled non-fraud. -/
theorem C4_day0_genuine_witness :
    runLogs cfgC7 mt0 profW ambC7 3 = some (txsC7, logsC7) ∧
    profW.compromised = false ∧
    (∀ l : DayLog, logsC7[0]? = some l → l.fired = false) ∧
    (∀ tx ∈ txsC7, tx.TX_TIME_DAYS = 0 → tx.TX_FRAUD = false) := by
  have h : runLogs cfgC7 mt0 profW ambC7 3 = some (txsC7, logsC7) := by
    norm_num [runLogs, generate_transactions_table, simDaysAux, simDay, npPoisson,
      npNormal, npUniform, RNG.next, int_trunc, rat_abs, int_abs, round2,
      generate_genuine_transactions, genuine_tx, genuineAmount, pyChoice,
      compromise_user, generate_fraudulent_transactions, fraud_tx, compute_time,
      compute_time_candidate, compute_time_loop, compute_first_time,
      compute_first_amount, compute_new_amt, compute_first_centre,
      compute_new_centre, rejectLoop, centreOk, squaredDist, sqrtLt,
      get_list_terminals_within_radius_from_point, txCentre, mt0, cfgC7, profW,
      ambC7, txsC7, logsC7, txC7, round_eq, List.range_succ, List.range_zero,
      List.filter_append, List.filter_cons, List.filter_nil, List.isEmpty_cons,
      List.isEmpty_nil]
  obtain ⟨h1, h2⟩ :=
    C4_day0_genuine_and_unlabeled cfgC7 mt0 profW ambC7 3 txsC7 logsC7 h
  exact ⟨h, rfl, h1, h2 rfl⟩
